import Mathlib

/-!
Shallow embedding of `nixops_aws/resources/ec2_security_group.py` (EC2
security-group reconciler) and proofs about its diff engine, identity-change
bookkeeping, creation/destroy error policy and rule construction.
-/

/-- One ingress rule as the code represents it: a Python tuple of length 4
(`[ip_protocol, from_port, to_port, cidr_ip]`) or length 5
(`[ip_protocol, from_port, to_port, group_name, owner_id]`); see lines 50-60
and 170-190 of the source. Port fields may be Python `None`, hence `Option`. -/
inductive Rule where
  | cidr (ip_protocol : String) (from_port to_port : Option Int) (cidr_ip : String)
  | peer (ip_protocol : String) (from_port to_port : Option Int)
      (group_name owner_id : Option String)
deriving DecidableEq, Repr

/-- One step of the diff loop at lines 239-244 of `create`: for a desired rule,
if it is already in `old_rules` remove it from there, otherwise put it into
`new_rules`. The accumulator is `(new_rules, old_rules)`. -/
def diffStep (acc : Finset Rule × Finset Rule) (rule : Rule) : Finset Rule × Finset Rule :=
  if rule ∈ acc.2 then (acc.1, acc.2.erase rule) else (insert rule acc.1, acc.2)

/-- The diff engine of `create` (lines 234-244): `old_rules` starts as the
persisted current rule set unless the group was created in this pass, then the
resolved desired rules are folded through `diffStep`. Returns
`(new_rules, old_rules)`, i.e. `(toAdd, toRemove)`. -/
def computeRuleDiff (security_group_was_created : Bool)
    (current resolved : List Rule) : Finset Rule × Finset Rule :=
  let old_rules : Finset Rule :=
    if security_group_was_created then ∅ else current.toFinset
  resolved.foldl diffStep (∅, old_rules)

theorem foldl_diffStep (l : List Rule) :
    l.Nodup → ∀ n o : Finset Rule,
      l.foldl diffStep (n, o) = (n ∪ (l.toFinset \ o), o \ l.toFinset) := by
  induction l with
  | nil => intro _ n o; simp
  | cons r t ih =>
    intro hl n o
    obtain ⟨hr, ht⟩ := List.nodup_cons.mp hl
    have hrt : r ∉ t.toFinset := by simpa using hr
    rw [List.foldl_cons]
    by_cases hmem : r ∈ o
    · rw [show diffStep (n, o) r = (n, o.erase r) from by simp [diffStep, hmem]]
      rw [ih ht n (o.erase r), Prod.mk.injEq]
      constructor
      · congr 1
        ext x
        simp only [Finset.mem_sdiff, Finset.mem_erase, List.toFinset_cons,
          Finset.mem_insert, List.mem_toFinset]
        constructor
        · rintro ⟨hx, hxo⟩
          exact ⟨Or.inr hx, fun hxo2 => hxo ⟨fun he => hr (he ▸ hx), hxo2⟩⟩
        · rintro ⟨hx, hxo⟩
          rcases hx with he | hx
          · exact absurd (he ▸ hmem) hxo
          · exact ⟨hx, fun h2 => hxo h2.2⟩
      · ext x
        simp only [Finset.mem_sdiff, Finset.mem_erase, List.toFinset_cons,
          Finset.mem_insert, List.mem_toFinset]
        tauto
    · rw [show diffStep (n, o) r = (insert r n, o) from by simp [diffStep, hmem]]
      rw [ih ht (insert r n) o, Prod.mk.injEq]
      constructor
      · ext x
        simp only [Finset.mem_union, Finset.mem_insert, Finset.mem_sdiff,
          List.toFinset_cons, List.mem_toFinset]
        by_cases hx : x = r
        · subst hx; tauto
        · tauto
      · ext x
        simp only [Finset.mem_sdiff, List.toFinset_cons, Finset.mem_insert,
          List.mem_toFinset]
        constructor
        · rintro ⟨hx, hxt⟩
          exact ⟨hx, fun h2 => by
            rcases h2 with he | h2
            · exact hmem (he ▸ hx)
            · exact hxt h2⟩
        · tauto

theorem computeRuleDiff_false_eq (current resolved : List Rule)
    (h : resolved.Nodup) :
    computeRuleDiff false current resolved =
      (resolved.toFinset \ current.toFinset,
       current.toFinset \ resolved.toFinset) := by
  rw [show computeRuleDiff false current resolved
      = resolved.foldl diffStep (∅, current.toFinset) from rfl]
  rw [foldl_diffStep resolved h ∅ current.toFinset]
  simp

theorem foldl_diffStep_emptyOld (l : List Rule) :
    ∀ n : Finset Rule, l.foldl diffStep (n, ∅) = (n ∪ l.toFinset, ∅) := by
  induction l with
  | nil => intro n; simp
  | cons r t ih =>
    intro n
    rw [List.foldl_cons,
      show diffStep (n, (∅ : Finset Rule)) r = (insert r n, ∅) from by
        simp [diffStep]]
    rw [ih (insert r n)]
    congr 1
    ext x
    simp only [Finset.mem_union, Finset.mem_insert, List.toFinset_cons,
      List.mem_toFinset]
    tauto

/-- C1: with an authoritative current baseline (the group was not created in
this pass, `security_group_was_created = false`), the diff loop computes
`toAdd = B - A` and `toRemove = A - B` under canonical tuple equality, and
swapping the two rule sets swaps `toAdd` and `toRemove`. -/
theorem diff_authoritative_spec (A B : List Rule) (hA : A.Nodup) (hB : B.Nodup) :
    (computeRuleDiff false A B).1 = B.toFinset \ A.toFinset ∧
    (computeRuleDiff false A B).2 = A.toFinset \ B.toFinset ∧
    (computeRuleDiff false B A).1 = (computeRuleDiff false A B).2 ∧
    (computeRuleDiff false B A).2 = (computeRuleDiff false A B).1 := by
  rw [computeRuleDiff_false_eq A B hB, computeRuleDiff_false_eq B A hA]
  exact ⟨rfl, rfl, rfl, rfl⟩

def ruleSSH : Rule := .cidr "tcp" (some 22) (some 22) "0.0.0.0/0"

def ruleHTTP : Rule := .cidr "tcp" (some 80) (some 80) "10.0.0.0/8"

def ruleHTTPS : Rule := .cidr "tcp" (some 443) (some 443) "10.0.0.0/8"

theorem diff_authoritative_spec_witness :
    (computeRuleDiff false [ruleHTTP] [ruleHTTP, ruleHTTPS]).1 =
      [ruleHTTP, ruleHTTPS].toFinset \ [ruleHTTP].toFinset :=
  (diff_authoritative_spec [ruleHTTP] [ruleHTTP, ruleHTTPS]
    (by decide) (by decide)).1

/-- C2: when the group was freshly created in this pass
(`security_group_was_created = true`), the diff yields the desired rules in
full as `toAdd` and an empty `toRemove`, regardless of the current rules. -/
theorem diff_fresh_create (current resolved : List Rule) :
    computeRuleDiff true current resolved = (resolved.toFinset, ∅) := by
  rw [show computeRuleDiff true current resolved
      = resolved.foldl diffStep (∅, ∅) from rfl]
  rw [foldl_diffStep_emptyOld resolved ∅]
  simp

/-- C3: applying `toAdd` and then `toRemove` from the authoritative diff to the
current rule set yields exactly the desired rule set (convergence). -/
theorem diff_apply_converges (current resolved : List Rule)
    (h : resolved.Nodup) :
    (current.toFinset ∪ (computeRuleDiff false current resolved).1) \
      (computeRuleDiff false current resolved).2 = resolved.toFinset := by
  rw [computeRuleDiff_false_eq current resolved h]
  ext x
  simp only [Finset.mem_sdiff, Finset.mem_union, List.mem_toFinset]
  tauto

theorem diff_apply_converges_witness :
    (([ruleHTTP] : List Rule).toFinset ∪
        (computeRuleDiff false [ruleHTTP] [ruleHTTP, ruleHTTPS]).1) \
      (computeRuleDiff false [ruleHTTP] [ruleHTTP, ruleHTTPS]).2 =
      [ruleHTTP, ruleHTTPS].toFinset :=
  diff_apply_converges [ruleHTTP] [ruleHTTP, ruleHTTPS] (by decide)

/-- Lifecycle states of `nixops.resources.ResourceState` used by this
resource. -/
inductive SGLifecycle where
  | UNKNOWN
  | MISSING
  | STARTING
  | UP
deriving DecidableEq, Repr

/-- The definition fields consulted by the identity-change check and the
identity commit (lines 127-151). -/
structure GroupDefn where
  security_group_name : String
  security_group_description : String
  region : String
deriving DecidableEq, Repr

/-- The persisted state fields touched by the identity-change check and the
identity commit. `old_security_groups` entries are the appended
`(name, region)` dictionaries; persisted attributes default to Python `None`,
hence `Option`. -/
structure GroupState where
  state : SGLifecycle
  security_group_name : Option String
  security_group_description : Option String
  region : Option String
  old_security_groups : List (String × Option String)
deriving DecidableEq, Repr

/-- Python truthiness of an optional string attribute: `None` and the empty
string are falsy. -/
def pythonTruthy : Option String → Bool
  | none => false
  | some s => s != ""

/-- The identity-change check at lines 127-135 of `create`: if the persisted
`security_group_name` is truthy and the name or region of the definition
differs from the persisted ones, append the old `(name, region)` to
`old_security_groups` and set the state to `UNKNOWN`, in one transaction. -/
def detectIdentityChange (defn : GroupDefn) (s : GroupState) : GroupState :=
  if pythonTruthy s.security_group_name ∧
      (some defn.security_group_name ≠ s.security_group_name ∨
        some defn.region ≠ s.region) then
    { s with
        state := .UNKNOWN,
        old_security_groups := s.old_security_groups ++
          [(s.security_group_name.getD "", s.region)] }
  else s

/-- The identity commit at lines 144-151 of `create`: the definition fields
are persisted in a second transaction. -/
def commitIdentity (defn : GroupDefn) (s : GroupState) : GroupState :=
  { s with
      region := some defn.region,
      security_group_name := some defn.security_group_name,
      security_group_description := some defn.security_group_description }

/-- The identity-handling phase of one `create` pass: the identity-change
check runs first (its transaction commits at line 135); between it and the
identity commit at lines 144-151 the network-scope reference resolution
(lines 137-142) may raise, aborting the pass. `completes` is false when the
pass aborts there, so only the first transaction has committed. -/
def createIdentityPhase (defn : GroupDefn) (completes : Bool)
    (s : GroupState) : GroupState :=
  let s1 := detectIdentityChange defn s
  if completes then commitIdentity defn s1 else s1

/-- C4 (amended): a pass that observes a set persisted name whose identity
differs from the definition appends exactly one `(name, region)` entry to
`old_security_groups` and sets the state to `UNKNOWN`; and once a pass has
successfully committed the new identity, the check does not fire again, so no
duplicate entry arises. (Duplicates do arise when the first pass aborts
between the two transactions; see the counterexample.) -/
theorem identity_change_appends_once (defn : GroupDefn) (s : GroupState)
    (hname : pythonTruthy s.security_group_name = true)
    (hdiff : some defn.security_group_name ≠ s.security_group_name ∨
      some defn.region ≠ s.region) :
    (detectIdentityChange defn s).old_security_groups =
      s.old_security_groups ++ [(s.security_group_name.getD "", s.region)] ∧
    (detectIdentityChange defn s).state = .UNKNOWN ∧
    (detectIdentityChange defn s).old_security_groups.length =
      s.old_security_groups.length + 1 ∧
    detectIdentityChange defn (createIdentityPhase defn true s) =
      createIdentityPhase defn true s := by
  have hcond : pythonTruthy s.security_group_name ∧
      (some defn.security_group_name ≠ s.security_group_name ∨
        some defn.region ≠ s.region) := ⟨hname, hdiff⟩
  refine ⟨?_, ?_, ?_, ?_⟩
  · rw [detectIdentityChange, if_pos hcond]
  · rw [detectIdentityChange, if_pos hcond]
  · rw [detectIdentityChange, if_pos hcond]; simp
  · rw [show createIdentityPhase defn true s =
        commitIdentity defn (detectIdentityChange defn s) from rfl]
    rw [detectIdentityChange]
    simp [commitIdentity, detectIdentityChange]

def c4defn : GroupDefn :=
  { security_group_name := "web2", security_group_description := "d",
    region := "us-east-1" }

def c4start : GroupState :=
  { state := .UP, security_group_name := some "web",
    security_group_description := some "d", region := some "us-east-1",
    old_security_groups := [] }

theorem identity_change_appends_once_witness :
    (detectIdentityChange c4defn c4start).old_security_groups =
      [("web", some "us-east-1")] :=
  (identity_change_appends_once c4defn c4start (by decide)
    (Or.inl (by decide))).1

/-- C4 counterexample: two passes that each observe the same stale persisted
identity (the first aborted before committing the new identity, so the second
still sees name `web`) produce a duplicate `pendingRetirement` entry. -/
theorem identity_change_duplicate_counterexample :
    (createIdentityPhase c4defn false c4start).security_group_name =
      some "web" ∧
    (createIdentityPhase c4defn false
        (createIdentityPhase c4defn false c4start)).old_security_groups =
      [("web", some "us-east-1"), ("web", some "us-east-1")] := by
  decide

/-- C10: on the first-ever reconcile the persisted `security_group_name` is
`None`, so the identity-change check never fires: the state is unchanged and
nothing is appended, whatever the definition says. -/
theorem identity_change_skipped_when_unset (defn : GroupDefn) (s : GroupState)
    (h : s.security_group_name = none) :
    detectIdentityChange defn s = s := by
  rw [detectIdentityChange, if_neg]
  rintro ⟨htruthy, -⟩
  rw [h] at htruthy
  exact Bool.false_ne_true htruthy

def c10start : GroupState :=
  { state := .MISSING, security_group_name := none,
    security_group_description := none, region := none,
    old_security_groups := [] }

theorem identity_change_skipped_when_unset_witness :
    detectIdentityChange c4defn c10start = c10start :=
  identity_change_skipped_when_unset c4defn c10start rfl

/-- Result of the remote `create_security_group` call: either the new group id
or an API error carrying a machine-readable error code. -/
inductive CreateOutcome where
  | created (group_id : String)
  | apiError (code : String)
deriving DecidableEq, Repr

/-- The creation step at lines 208-232 of `create`: attempted only from
`MISSING` or `UNKNOWN`; on success the state moves to `STARTING` and
`security_group_was_created` is set; an API error is re-raised unless the
state was `UNKNOWN` and the code is `InvalidGroup.Duplicate`, in which case it
is swallowed and the state still moves to `STARTING`. Returns the new
lifecycle state and `security_group_was_created`, or the propagated error
code. -/
def attemptCreate (st : SGLifecycle) (outcome : CreateOutcome) :
    Except String (SGLifecycle × Bool) :=
  if st = .MISSING ∨ st = .UNKNOWN then
    match outcome with
    | .created _ => .ok (.STARTING, true)
    | .apiError code =>
        if st ≠ .UNKNOWN ∨ code ≠ "InvalidGroup.Duplicate" then .error code
        else .ok (.STARTING, false)
  else .ok (st, false)

/-- C5: a failing create call is swallowed (and the pass proceeds to
`STARTING`) exactly when the state at the attempt was `UNKNOWN` and the error
code is the duplicate-resource code; in every other combination (in
particular from `MISSING`, and for every non-duplicate code) the error
propagates. -/
theorem create_duplicate_tolerated_iff_unknown (st : SGLifecycle)
    (code : String) (h : st = .MISSING ∨ st = .UNKNOWN) :
    (attemptCreate st (.apiError code) = .ok (.STARTING, false) ↔
      st = .UNKNOWN ∧ code = "InvalidGroup.Duplicate") ∧
    (¬(st = .UNKNOWN ∧ code = "InvalidGroup.Duplicate") →
      attemptCreate st (.apiError code) = .error code) := by
  rw [attemptCreate, if_pos h]
  by_cases hu : st = .UNKNOWN ∧ code = "InvalidGroup.Duplicate"
  · rw [if_neg (by push_neg; simp [hu.1, hu.2])]
    exact ⟨⟨fun _ => hu, fun _ => rfl⟩, fun hn => absurd hu hn⟩
  · rw [if_pos (by tauto)]
    refine ⟨⟨fun hcontra => absurd hcontra (by simp), fun hcontra => absurd hcontra hu⟩, fun _ => rfl⟩

theorem create_duplicate_tolerated_iff_unknown_witness :
    attemptCreate .MISSING (.apiError "InvalidGroup.Duplicate") =
      .error "InvalidGroup.Duplicate" :=
  (create_duplicate_tolerated_iff_unknown .MISSING "InvalidGroup.Duplicate"
    (Or.inl rfl)).2 (by simp)

/-- Per-rule outcome of a remote authorize or revoke call, after any retry
policy of the wrapper has run: `none` is success, `some code` is an API error
with that error code. -/
def RuleOutcome : Type := Rule → Option String

/-- The removal loop at lines 297-320 of `create`: each `old_rules` entry is
revoked once, with no retry wrapper and no exception handler, so the first
API error propagates and aborts the pass. -/
def revokeRules (outcome : RuleOutcome) : List Rule → Except String Unit
  | [] => .ok ()
  | r :: rs =>
    match outcome r with
    | none => revokeRules outcome rs
    | some code => .error code

/-- The addition loop at lines 255-286 of `create`: each `new_rules` entry is
authorized (through a retry wrapper for `InvalidGroup.NotFound`, folded into
`outcome` here); an `InvalidPermission.Duplicate` error is swallowed and the
loop continues, any other error propagates. -/
def authorizeRules (outcome : RuleOutcome) : List Rule → Except String Unit
  | [] => .ok ()
  | r :: rs =>
    match outcome r with
    | none => authorizeRules outcome rs
    | some code =>
        if code = "InvalidPermission.Duplicate" then authorizeRules outcome rs
        else .error code

/-- C6 counterexample: a revoke call that fails with
`InvalidPermission.Duplicate` is not treated as success; the error propagates
and aborts the batch, because the removal loop has no exception handler. -/
theorem revoke_duplicate_counterexample :
    revokeRules (fun _ => some "InvalidPermission.Duplicate") [ruleSSH] =
      .error "InvalidPermission.Duplicate" := rfl

/-- C6 (amended): revoke calls are not retried, and every API error from a
revoke call, including `InvalidPermission.Duplicate` (already removed), is
fatal: the removal batch succeeds exactly when every revoke call succeeds.
(The duplicate-permission tolerance belongs to the addition loop at lines
284-286, not the removal loop.) -/
theorem revoke_errors_fatal (outcome : RuleOutcome) (rules : List Rule) :
    revokeRules outcome rules = .ok () ↔
      ∀ r ∈ rules, outcome r = none := by
  induction rules with
  | nil => simp [revokeRules]
  | cons r rs ih =>
    rw [revokeRules]
    cases hr : outcome r with
    | none => simp only [List.mem_cons]; rw [ih]; constructor
              · rintro h x (rfl | hx)
                · exact hr
                · exact h x hx
              · intro h x hx; exact h x (Or.inr hx)
    | some code =>
        simp only [List.mem_cons]
        constructor
        · intro h; exact absurd h (by simp)
        · intro h; exact absurd (h r (Or.inl rfl)) (by simp [hr])

theorem revoke_errors_fatal_witness :
    revokeRules (fun _ => none) [ruleSSH, ruleHTTP] = .ok () :=
  (revoke_errors_fatal (fun _ => none) [ruleSSH, ruleHTTP]).mpr
    (fun _ _ => rfl)

/-- A remote mutation call issued by the apply phase of `create`. -/
inductive ApiCall where
  | authorizeCall (rule : Rule)
  | revokeCall (rule : Rule)
deriving DecidableEq, Repr

def ApiCall.isAuthorizeCall : ApiCall → Bool
  | .authorizeCall _ => true
  | .revokeCall _ => false

/-- Trace of the addition loop (lines 255-286): each rule is authorized in
turn; a fatal (non-duplicate) error stops the loop after the failing attempt
and makes the whole pass abort, returning `false` as the second component. -/
def authorizeTrace (outcome : RuleOutcome) : List Rule → List ApiCall × Bool
  | [] => ([], true)
  | r :: rs =>
    match outcome r with
    | none =>
        (.authorizeCall r :: (authorizeTrace outcome rs).1,
         (authorizeTrace outcome rs).2)
    | some code =>
        if code = "InvalidPermission.Duplicate" then
          (.authorizeCall r :: (authorizeTrace outcome rs).1,
           (authorizeTrace outcome rs).2)
        else ([.authorizeCall r], false)

/-- Trace of the removal loop (lines 297-320): each rule is revoked in turn;
any error stops the loop after the failing attempt. -/
def revokeTrace (outcome : RuleOutcome) : List Rule → List ApiCall
  | [] => []
  | r :: rs =>
    match outcome r with
    | none => .revokeCall r :: revokeTrace outcome rs
    | some _ => [.revokeCall r]

/-- The sequence of remote mutation calls one `create` pass attempts
(lines 246-320): the addition loop over `new_rules` runs first; the removal
loop over `old_rules` runs only if no addition failed fatally (an uncaught
exception there propagates out of `create` before the removal loop is
reached). `addList` and `removeList` are the two diff sets in the unspecified
order in which Python iterates them. -/
def reconcileApplyTrace (addList removeList : List Rule)
    (addOutcome revOutcome : RuleOutcome) : List ApiCall :=
  if (authorizeTrace addOutcome addList).2 then
    (authorizeTrace addOutcome addList).1 ++ revokeTrace revOutcome removeList
  else
    (authorizeTrace addOutcome addList).1

theorem authorizeTrace_all_authorize (outcome : RuleOutcome) (l : List Rule) :
    ∀ c ∈ (authorizeTrace outcome l).1, c.isAuthorizeCall = true := by
  induction l with
  | nil => intro c hc; simp [authorizeTrace] at hc
  | cons r rs ih =>
    intro c hc
    cases hr : outcome r with
    | none =>
      simp only [authorizeTrace, hr, List.mem_cons] at hc
      rcases hc with rfl | hc2
      · rfl
      · exact ih c hc2
    | some code =>
      simp only [authorizeTrace, hr] at hc
      by_cases hcode : code = "InvalidPermission.Duplicate"
      · rw [if_pos hcode] at hc
        rcases List.mem_cons.mp hc with rfl | hc2
        · rfl
        · exact ih c hc2
      · rw [if_neg hcode] at hc
        rcases List.mem_cons.mp hc with rfl | hc2
        · rfl
        · simp at hc2

theorem revokeTrace_all_revoke (outcome : RuleOutcome) (l : List Rule) :
    ∀ c ∈ revokeTrace outcome l, c.isAuthorizeCall = false := by
  induction l with
  | nil => intro c hc; simp [revokeTrace] at hc
  | cons r rs ih =>
    intro c hc
    cases hr : outcome r with
    | none =>
      simp only [revokeTrace, hr, List.mem_cons] at hc
      rcases hc with rfl | hc2
      · rfl
      · exact ih c hc2
    | some code =>
      simp only [revokeTrace, hr, List.mem_cons] at hc
      rcases hc with rfl | hc2
      · rfl
      · simp at hc2

/-- C7: in every reconcile pass, for any enumeration of the two diff sets,
the attempted call trace splits into a block of authorize calls followed by a
block of revoke calls: every authorize call for `toAdd` is attempted before
any revoke call for `toRemove` is attempted. -/
theorem adds_attempted_before_removes (security_group_was_created : Bool)
    (current resolved addList removeList : List Rule)
    (addOutcome revOutcome : RuleOutcome)
    (_hadd : addList.toFinset =
      (computeRuleDiff security_group_was_created current resolved).1)
    (_hrem : removeList.toFinset =
      (computeRuleDiff security_group_was_created current resolved).2) :
    ∃ adds removes : List ApiCall,
      reconcileApplyTrace addList removeList addOutcome revOutcome =
          adds ++ removes ∧
      (∀ c ∈ adds, c.isAuthorizeCall = true) ∧
      (∀ c ∈ removes, c.isAuthorizeCall = false) := by
  by_cases hb : (authorizeTrace addOutcome addList).2 = true
  · refine ⟨(authorizeTrace addOutcome addList).1,
      revokeTrace revOutcome removeList,
      ?_, authorizeTrace_all_authorize _ _, revokeTrace_all_revoke _ _⟩
    rw [reconcileApplyTrace, if_pos hb]
  · refine ⟨(authorizeTrace addOutcome addList).1,
      [], ?_, authorizeTrace_all_authorize _ _, by intro c hc; simp at hc⟩
    rw [reconcileApplyTrace, if_neg hb, List.append_nil]

theorem adds_attempted_before_removes_witness :
    ∃ adds removes : List ApiCall,
      reconcileApplyTrace [ruleHTTPS] [] (fun _ => none) (fun _ => none) =
          adds ++ removes ∧
      (∀ c ∈ adds, c.isAuthorizeCall = true) ∧
      (∀ c ∈ removes, c.isAuthorizeCall = false) :=
  adds_attempted_before_removes false [ruleHTTP] [ruleHTTP, ruleHTTPS]
    [ruleHTTPS] [] (fun _ => none) (fun _ => none) (by decide) (by decide)

/-- Peer-group source fields of a rule definition entry. -/
structure SourceGroupOpts where
  groupName : Option String
  ownerId : Option String
deriving DecidableEq, Repr

/-- Modelled from the spec: the option types module
(`nixops_aws/resources/types/ec2_security_group.py`, giving
`Ec2SecurityGroupOptions`) is not among the sources here. Per the data model
of the spec a rule carries either a CIDR source or a peer-group source, so
`sourceGroup` is modelled as optional and reading a field of an absent
`sourceGroup` raises (a Python attribute error). -/
structure RuleOpts where
  protocol : String
  typeNumber : Option Int
  codeNumber : Option Int
  fromPort : Option Int
  toPort : Option Int
  sourceIp : Option String
  sourceGroup : Option SourceGroupOpts
deriving DecidableEq, Repr

/-- Rule construction from one definition entry (lines 41-60 of the source):
for `icmp` the two numeric fields are `typeNumber` and `codeNumber`,
otherwise `fromPort` and `toPort`; when `sourceIp` is set the rule becomes a
4-tuple CIDR rule, otherwise the peer-group fields are read (raising when the
peer group is absent). -/
def mkSecurityGroupRule (r : RuleOpts) : Except String Rule :=
  let from_port := if r.protocol = "icmp" then r.typeNumber else r.fromPort
  let to_port := if r.protocol = "icmp" then r.codeNumber else r.toPort
  match r.sourceIp with
  | some cidr_ip => .ok (.cidr r.protocol from_port to_port cidr_ip)
  | none =>
      match r.sourceGroup with
      | some g => .ok (.peer r.protocol from_port to_port g.groupName g.ownerId)
      | none => .error "AttributeError"

/-- C8 counterexample: a rule definition with both a CIDR source and a
peer-group source set is not rejected; the CIDR branch is taken and the peer
group is silently ignored. -/
theorem rule_both_sources_counterexample :
    mkSecurityGroupRule
      { protocol := "tcp", typeNumber := none, codeNumber := none,
        fromPort := some 22, toPort := some 22,
        sourceIp := some "10.0.0.0/8",
        sourceGroup := some { groupName := some "other", ownerId := some "1234" } }
      = .ok (.cidr "tcp" (some 22) (some 22) "10.0.0.0/8") := rfl

/-- C8 (amended): rule construction raises exactly when neither the CIDR
source nor the peer-group source is set; when the CIDR source is set the rule
is accepted as a CIDR rule regardless of the peer-group source (the CIDR
source takes precedence, so both-set is not rejected). -/
theorem rule_source_validation (r : RuleOpts) :
    ((∃ e, mkSecurityGroupRule r = .error e) ↔
      r.sourceIp = none ∧ r.sourceGroup = none) ∧
    (∀ c, r.sourceIp = some c →
      mkSecurityGroupRule r =
        .ok (.cidr r.protocol
          (if r.protocol = "icmp" then r.typeNumber else r.fromPort)
          (if r.protocol = "icmp" then r.codeNumber else r.toPort) c)) := by
  constructor
  · cases hip : r.sourceIp with
    | some c => simp [mkSecurityGroupRule, hip]
    | none =>
      cases hg : r.sourceGroup with
      | some g => simp [mkSecurityGroupRule, hip, hg]
      | none => simp [mkSecurityGroupRule, hip, hg]
  · intro c hc
    simp [mkSecurityGroupRule, hc]

theorem rule_source_validation_witness :
    ∃ e, mkSecurityGroupRule
      { protocol := "tcp", typeNumber := none, codeNumber := none,
        fromPort := some 22, toPort := some 22, sourceIp := none,
        sourceGroup := none } = .error e :=
  (rule_source_validation
    { protocol := "tcp", typeNumber := none, codeNumber := none,
      fromPort := some 22, toPort := some 22, sourceIp := none,
      sourceGroup := none }).1.mpr ⟨rfl, rfl⟩

/-- The `destroy` method (lines 350-370): it acts only from `UP` or
`STARTING`; the delete call goes through the retry wrapper for
`DependencyViolation` (`deleteOutcome` is the final outcome after that
wrapper: `none` is success, `some code` a final API error); an
`InvalidGroup.NotFound` error is tolerated; on the tolerated paths the state
becomes `MISSING` and `True` is returned; any other state returns `True`
without touching the remote side. -/
def destroySG (s : GroupState) (deleteOutcome : Option String) :
    Except String (GroupState × Bool) :=
  if s.state = .UP ∨ s.state = .STARTING then
    match deleteOutcome with
    | none => .ok ({ s with state := .MISSING }, true)
    | some code =>
        if code ≠ "InvalidGroup.NotFound" then .error code
        else .ok ({ s with state := .MISSING }, true)
  else .ok (s, true)

/-- C9: destroy is a successful no-op outside `UP` and `STARTING`; from `UP`
or `STARTING` it returns `True` and sets the state to `MISSING` both on a
successful delete and on an already-gone (`InvalidGroup.NotFound`) response;
and after a destroy whose delete succeeded, a second destroy returns `True`
whatever the remote side answers (in particular when the object is already
absent), so destroy called twice reports success both times. -/
theorem destroy_idempotent_success (s : GroupState) (o : Option String) :
    (s.state ≠ .UP ∧ s.state ≠ .STARTING → destroySG s o = .ok (s, true)) ∧
    ((s.state = .UP ∨ s.state = .STARTING) →
      destroySG s none = .ok ({ s with state := .MISSING }, true) ∧
      destroySG s (some "InvalidGroup.NotFound") =
        .ok ({ s with state := .MISSING }, true)) ∧
    (∀ s1 b, destroySG s none = .ok (s1, b) →
      b = true ∧ destroySG s1 o = .ok (s1, true)) := by
  by_cases hs : s.state = .UP ∨ s.state = .STARTING
  · refine ⟨fun hcontra => ?_, fun _ => ?_, fun s1 b h => ?_⟩
    · rcases hs with h1 | h1
      · exact absurd h1 hcontra.1
      · exact absurd h1 hcontra.2
    · constructor
      · simp [destroySG, hs]
      · simp [destroySG, hs]
    · rw [show destroySG s none = .ok ({ s with state := .MISSING }, true)
        from by simp [destroySG, hs]] at h
      injection h with h2
      obtain ⟨h3, h4⟩ := Prod.mk.injEq .. |>.mp h2
      subst h3
      subst h4
      exact ⟨rfl, by simp [destroySG]⟩
  · refine ⟨fun _ => ?_, fun hcontra => absurd hcontra hs, fun s1 b h => ?_⟩
    · simp [destroySG, hs]
    · rw [show destroySG s none = .ok (s, true)
        from by simp [destroySG, hs]] at h
      injection h with h2
      obtain ⟨h3, h4⟩ := Prod.mk.injEq .. |>.mp h2
      subst h3
      subst h4
      simp [destroySG, hs]

def c9up : GroupState :=
  { state := .UP, security_group_name := some "web",
    security_group_description := some "d", region := some "us-east-1",
    old_security_groups := [] }

theorem destroy_idempotent_success_witness :
    destroySG c9up none = .ok ({ c9up with state := .MISSING }, true) ∧
    destroySG { c9up with state := .MISSING }
        (some "InvalidGroup.NotFound") =
      .ok ({ c9up with state := .MISSING }, true) :=
  ⟨((destroy_idempotent_success c9up none).2.1 (Or.inl rfl)).1,
   (destroy_idempotent_success { c9up with state := .MISSING }
      (some "InvalidGroup.NotFound")).1 ⟨by decide, by decide⟩⟩
